import Mathlib

/-!
Verification of the `ladning` charging-plan optimizer (`ladning/charging_plan.py`,
`ladning/constants.py`, `ladning/types.py`).

Embedding conventions:
* Python floats are embedded as exact rationals (`ℚ`); the source's arithmetic on
  them (`+`, `-`, `*`, `/`, `min`, `math.modf`, `math.ceil`) is mirrored exactly.
* Timestamps (`datetime`) are rationals counting hours; `timedelta(hours=1)` is `1`
  and `timedelta(minutes=m)` is `m / 60`.
* `dt.datetime.now()` is read once per iteration of the price-filter loop in
  `create_charging_plan`; the embedding makes this explicit with a `clock : ℕ → ℚ`
  argument, where the i-th loop iteration reads `clock i`.
* Python exceptions (`RuntimeError` from validation, `ValueError` from `min([])`,
  `IndexError` from list indexing) are embedded as `Except PlanError`.
-/

unseal Rat.add Rat.mul Rat.inv Rat.sub Rat.ofScientific

namespace Ladning

/-- Constant from `ladning/constants.py` line 2: `BATTERY_CAPACITY_KWH = 57.5`. -/
def BATTERY_CAPACITY_KWH : ℚ := 57.5

/-- Constant from `ladning/constants.py` line 3: `CHARGING_KW_MAX = 10.6`. -/
def CHARGING_KW_MAX : ℚ := 10.6

/-- Constant from `ladning/constants.py` line 4: `CHARGING_KW_END = 7.6`. -/
def CHARGING_KW_END : ℚ := 7.6

/-- Constant from `ladning/constants.py` line 5: `APPROX_MAX_RANGE_KM = 450`. -/
def APPROX_MAX_RANGE_KM : ℚ := 450

/-- Constant from `ladning/constants.py` line 6: `TAX_REFUND_DKK_KWH = 0.94`. -/
def TAX_REFUND_DKK_KWH : ℚ := 0.94

/-- Integral part of Python's `math.modf` (truncation toward zero, like CPython). -/
def pyTrunc (x : ℚ) : ℤ := if 0 ≤ x then ⌊x⌋ else ⌈x⌉

/-- Fractional part of Python's `math.modf`: `modf(x) = (pyFrac x, pyTrunc x)`. -/
def pyFrac (x : ℚ) : ℚ := x - pyTrunc x

/-- Dataclass `EnergyNeed` from `ladning/types.py` (`energy_signal: List[float]`,
`hours_required: float`). -/
structure EnergyNeed where
  energy_signal : List ℚ
  hours_required : ℚ
deriving DecidableEq, Repr

/-- Dataclass `VehicleChargeState` from `ladning/types.py`. -/
structure VehicleChargeState where
  battery_level : ℤ
  range_km : ℚ
  minutes_to_full_charge : ℤ
deriving DecidableEq, Repr

/-- Dataclass `HourlyPrice` from `ladning/types.py` (`start: dt.datetime`,
`price_kwh_dkk: float`); `start` in hours. -/
structure HourlyPrice where
  start : ℚ
  price_kwh_dkk : ℚ
deriving DecidableEq, Repr

/-- Dataclass `ChargingPlan` from `ladning/types.py`. -/
structure ChargingPlan where
  start_time : ℚ
  end_time : ℚ
  battery_start : ℤ
  battery_end : ℤ
  total_cost_dkk : ℚ
  range_added_km : ℚ
deriving DecidableEq, Repr

/-- Dataclass `ChargingRequest` from `ladning/types.py` (`battery_target: int`,
`ready_by: Optional[dt.datetime]`). -/
structure ChargingRequest where
  battery_target : ℤ
  ready_by : Option ℚ
deriving DecidableEq, Repr

/-- Dataclass `ChargingRequestResponse` from `ladning/types.py`. -/
structure ChargingRequestResponse where
  success : Bool
  reason : String
  plan : Option ChargingPlan
deriving DecidableEq, Repr

/-- The exceptions `charging_plan.py` can raise:
`invalidRangeStart`/`invalidRangeTarget` are the two `RuntimeError`s of
`calculate_energy_need` (lines 87-90), `emptyPrices` the `RuntimeError` of
`create_charging_plan` line 144, `emptyMin` a `ValueError` from `min` on an
empty list (line 179), `indexError` an out-of-bounds list access. -/
inductive PlanError where
  | invalidRangeStart (v : ℤ)
  | invalidRangeTarget (v : ℤ)
  | emptyPrices
  | emptyMin
  | indexError
deriving DecidableEq, Repr

instance {ε α : Type} [DecidableEq ε] [DecidableEq α] : DecidableEq (Except ε α) := fun a b =>
  match a, b with
  | .error e, .error f =>
    if h : e = f then .isTrue (by rw [h]) else .isFalse fun hc => h (Except.error.inj hc)
  | .error _, .ok _ => .isFalse fun hc => Except.noConfusion hc
  | .ok _, .error _ => .isFalse fun hc => Except.noConfusion hc
  | .ok x, .ok y =>
    if h : x = y then .isTrue (by rw [h]) else .isFalse fun hc => h (Except.ok.inj hc)

/-- Source `charging_plan.py` lines 11-18, `argmin`: `min(range(len(a)), key=lambda x: a[x],
default=-1)`. Python's `min` keeps the earliest element among equal keys, so the
running best is replaced only on a strictly smaller value. Helper: scan the
remaining list `l`, with `bv` the best value so far, `best` its index, and `i` the
index of the head of `l`. -/
def argminGo : List ℚ → ℚ → ℕ → ℕ → ℕ
  | [], _, best, _ => best
  | y :: ys, bv, best, i => if y < bv then argminGo ys y i (i + 1) else argminGo ys bv best (i + 1)

/-- Source `charging_plan.py` lines 11-18: `argmin` (returns `-1` on an empty list). -/
def argmin (a : List ℚ) : ℤ :=
  match a with
  | [] => -1
  | x :: xs => argminGo xs x 0 1

/-- Source `charging_plan.py` lines 21-42, `convolve_valid`: the `valid_length <= 0 or
len2 == 0` guard returns `[]`; otherwise entry `i` is the running sum
`conv_sum += signal1[i + j] * signal2[j]` over `j < len2`. -/
def convolve_valid (signal1 signal2 : List ℚ) : List ℚ :=
  if signal1.length < signal2.length ∨ signal2.length = 0 then []
  else
    (List.range (signal1.length - signal2.length + 1)).map fun i =>
      (List.range signal2.length).foldl
        (fun conv_sum j => conv_sum + signal1.getD (i + j) 0 * signal2.getD j 0) 0

/-- The loop of `shift_fractional_forward` (`charging_plan.py` lines 55-61): walk
adjacent pairs of the original signal, threading the running `shift`. -/
def shiftLoop : List ℚ → ℚ → List ℚ
  | [], _ => []
  | [_], _ => []
  | x :: y :: rest, shift =>
    let remaining := x - shift
    let shift2 := min (x - remaining) y
    (remaining + shift2) :: shiftLoop (y :: rest) shift2

/-- Source `charging_plan.py` lines 45-63, `shift_fractional_forward`. The source
reads `energy_signal[0]` (an `IndexError` on an empty signal, which no
`calculate_energy_need` output produces); the embedding uses `headD 0` there. -/
def shift_fractional_forward (energy_need : EnergyNeed) : EnergyNeed :=
  let fractional_hour := pyFrac energy_need.hours_required
  let shift := energy_need.energy_signal.headD 0 * fractional_hour
  ⟨shift :: shiftLoop energy_need.energy_signal shift, energy_need.hours_required⟩

/-- Source `charging_plan.py` lines 66-76, `estimate_added_range`. -/
def estimate_added_range (battery_state target_state : ℤ) : ℚ :=
  let range_per_percentage := APPROX_MAX_RANGE_KM / 100
  let battery_diff : ℚ := (target_state : ℚ) - (battery_state : ℚ)
  range_per_percentage * battery_diff

/-- Embedding of `energy_signal[-1] += d` (`charging_plan.py` line 125): add `d` to the last
entry. Only called under the `len(energy_signal) > 0` guard. -/
def addToLast (l : List ℚ) (d : ℚ) : List ℚ :=
  match l with
  | [] => []
  | [x] => [x + d]
  | x :: y :: rest => x :: addToLast (y :: rest) d

/-- Source `charging_plan.py` lines 79-134, `calculate_energy_need`. `step1` is the
state of `(energy_signal, hours_required)` after the `if hours_required_to_95_percent > 0`
block (lines 112-117), `step2` after the `if hours_required_from_95_percent > 0`
block (lines 118-132); `stepA` is the state of `(energy_signal,
hours_required_from_95_percent)` after the `len(energy_signal) > 0` block
(lines 122-126). -/
def calculate_energy_need (battery_state target_state : ℤ) :
    Except PlanError (Option EnergyNeed) :=
  if battery_state < 0 ∨ battery_state > 100 then
    .error (.invalidRangeStart battery_state)
  else if target_state < 0 ∨ target_state > 100 then
    .error (.invalidRangeTarget target_state)
  else if battery_state ≥ target_state then
    .ok none
  else if target_state < 95 then
    let hours_required : ℚ :=
      ((target_state : ℚ) - (battery_state : ℚ)) / 100 * BATTERY_CAPACITY_KWH / CHARGING_KW_MAX
    let fractional_hour := pyFrac hours_required
    let full_hours := pyTrunc hours_required
    let energy_signal :=
      List.replicate full_hours.toNat CHARGING_KW_MAX ++ [CHARGING_KW_MAX * fractional_hour]
    .ok (some ⟨energy_signal, hours_required⟩)
  else
    let hours_required_to_95_percent : ℚ :=
      (95 - (battery_state : ℚ)) / 100 * BATTERY_CAPACITY_KWH / CHARGING_KW_MAX
    let hours_required_from_95_percent : ℚ :=
      ((target_state : ℚ) - 95) / 100 * BATTERY_CAPACITY_KWH / CHARGING_KW_END
    let step1 : List ℚ × ℚ :=
      if hours_required_to_95_percent > 0 then
        let fractional_hour_to_95 := pyFrac hours_required_to_95_percent
        let full_hours_to_95 := pyTrunc hours_required_to_95_percent
        let s := ([] : List ℚ) ++ List.replicate full_hours_to_95.toNat CHARGING_KW_MAX
        (if fractional_hour_to_95 > 0 then s ++ [CHARGING_KW_MAX * fractional_hour_to_95] else s,
         0 + hours_required_to_95_percent)
      else ([], 0)
    let step2 : List ℚ × ℚ :=
      if hours_required_from_95_percent > 0 then
        let stepA : List ℚ × ℚ :=
          if step1.1.length > 0 then
            let available_time := 1 - pyFrac hours_required_to_95_percent
            let used_time := min available_time hours_required_from_95_percent
            (addToLast step1.1 (used_time * CHARGING_KW_END),
             hours_required_from_95_percent - used_time)
          else (step1.1, hours_required_from_95_percent)
        let fractional_hour_from_95 := pyFrac stepA.2
        let full_hours_from_95 := pyTrunc stepA.2
        let sB := stepA.1 ++ List.replicate full_hours_from_95.toNat CHARGING_KW_END
        (if fractional_hour_from_95 > 0 then sB ++ [CHARGING_KW_END * fractional_hour_from_95]
         else sB,
         step1.2 + hours_required_from_95_percent)
      else step1
    .ok (some ⟨step2.1, step2.2⟩)

/-- Python's `min` over a list of floats; `ValueError` on an empty list. -/
def pymin (l : List ℚ) : Except PlanError ℚ :=
  match l with
  | [] => .error .emptyMin
  | x :: xs => .ok (xs.foldl min x)

/-- Python list indexing `l[i]` with an `int` index: negative indices count from
the end; out of bounds raises `IndexError`. -/
def pyGetHP (l : List HourlyPrice) (i : ℤ) : Except PlanError HourlyPrice :=
  if h : 0 ≤ i ∧ i.toNat < l.length then .ok (l.get ⟨i.toNat, h.2⟩)
  else if h2 : 0 ≤ i + l.length ∧ (i + l.length).toNat < l.length then
    .ok (l.get ⟨(i + l.length).toNat, h2.2⟩)
  else .error .indexError

/-- The price-filter loop of `create_charging_plan` (`charging_plan.py` lines
153-161). Iteration `i` evaluates `dt.datetime.now()` as `clock i`; an entry is
kept when `p.start >= now - timedelta(hours=1)` and, if `ready_by` is set,
`p.start + timedelta(hours=1) <= ready_by` (`valid &= ...`). -/
def filterValidGo (clock : ℕ → ℚ) (ready_by : Option ℚ) : ℕ → List HourlyPrice → List HourlyPrice
  | _, [] => []
  | i, p :: ps =>
    let valid := decide (p.start ≥ clock i - 1) &&
      (match ready_by with
       | some r => decide (p.start + 1 ≤ r)
       | none => true)
    if valid then p :: filterValidGo clock ready_by (i + 1) ps
    else filterValidGo clock ready_by (i + 1) ps

/-- Source `charging_plan.py` lines 163-207: the tail of `create_charging_plan`, from
the `ceil` check on the already-filtered `hourly_prices_valid` to the final
response. These lines read no clock. `full_hour_total_prices` and
`frac_hour_total_prices` are the source's `full_hour_total_prices` and
`partial_hour_total_prices`. -/
def plan_from_valid (vehicle_charge_state : VehicleChargeState)
    (charging_request : ChargingRequest) (energy_need : EnergyNeed)
    (hourly_prices_valid : List HourlyPrice) : Except PlanError ChargingRequestResponse :=
  if (hourly_prices_valid.length : ℤ) < ⌈energy_need.hours_required⌉ then
    .ok ⟨false, "Not enough time to charge to the requested level", none⟩
  else
    let prices_after_refund :=
      hourly_prices_valid.map fun p => p.price_kwh_dkk - TAX_REFUND_DKK_KWH
    let full_hour_total_prices := convolve_valid prices_after_refund energy_need.energy_signal
    let frac_hour_energy_need := shift_fractional_forward energy_need
    let frac_hour_total_prices :=
      convolve_valid prices_after_refund frac_hour_energy_need.energy_signal
    let range_added :=
      estimate_added_range vehicle_charge_state.battery_level charging_request.battery_target
    match pymin full_hour_total_prices with
    | .error e => .error e
    | .ok min_full =>
      match pymin frac_hour_total_prices with
      | .error e => .error e
      | .ok min_frac =>
        if min_full ≤ min_frac then
          match pyGetHP hourly_prices_valid (argmin full_hour_total_prices) with
          | .error e => .error e
          | .ok p =>
            let start_time := p.start
            let end_time := start_time + energy_need.hours_required
            .ok ⟨true, "",
              some ⟨start_time, end_time, vehicle_charge_state.battery_level,
                charging_request.battery_target, min_full, range_added⟩⟩
        else
          match pyGetHP hourly_prices_valid (argmin frac_hour_total_prices) with
          | .error e => .error e
          | .ok p =>
            let starting_hour := p.start
            let hourly_fraction := pyFrac energy_need.hours_required
            let minutes_into_hour := (1 - hourly_fraction) * 60
            let start_time := starting_hour + minutes_into_hour / 60
            let end_time := start_time + energy_need.hours_required
            .ok ⟨true, "",
              some ⟨start_time, end_time, vehicle_charge_state.battery_level,
                charging_request.battery_target, min_frac, range_added⟩⟩

/-- Source `charging_plan.py` lines 137-207, `create_charging_plan`. The wall clock read
in the filter loop (line 156) is the explicit `clock` argument; everything after
the filter is `plan_from_valid`. -/
def create_charging_plan (clock : ℕ → ℚ) (vehicle_charge_state : VehicleChargeState)
    (hourly_prices : List HourlyPrice) (charging_request : ChargingRequest) :
    Except PlanError ChargingRequestResponse :=
  if ¬vehicle_charge_state.battery_level < charging_request.battery_target then
    .ok ⟨false, "Vehicle battery level already at or above target", none⟩
  else if hourly_prices.length = 0 then
    .error .emptyPrices
  else
    match calculate_energy_need vehicle_charge_state.battery_level
        charging_request.battery_target with
    | .error e => .error e
    | .ok none => .ok ⟨false, "Vehicle battery level already at or above target", none⟩
    | .ok (some energy_need) =>
      plan_from_valid vehicle_charge_state charging_request energy_need
        (filterValidGo clock charging_request.ready_by 0 hourly_prices)

/-- The price filter with a single fixed `now`, as the specification describes it
(the clock is read once, before the loop). -/
def filterValidNow (now : ℚ) (ready_by : Option ℚ) : List HourlyPrice → List HourlyPrice
  | [] => []
  | p :: ps =>
    let valid := decide (p.start ≥ now - 1) &&
      (match ready_by with
       | some r => decide (p.start + 1 ≤ r)
       | none => true)
    if valid then p :: filterValidNow now ready_by ps
    else filterValidNow now ready_by ps

/-- Function `create_charging_plan` as the specification describes it: `now` an explicit
input, the wall clock never read during execution. -/
def create_charging_plan_at (now : ℚ) (vehicle_charge_state : VehicleChargeState)
    (hourly_prices : List HourlyPrice) (charging_request : ChargingRequest) :
    Except PlanError ChargingRequestResponse :=
  if ¬vehicle_charge_state.battery_level < charging_request.battery_target then
    .ok ⟨false, "Vehicle battery level already at or above target", none⟩
  else if hourly_prices.length = 0 then
    .error .emptyPrices
  else
    match calculate_energy_need vehicle_charge_state.battery_level
        charging_request.battery_target with
    | .error e => .error e
    | .ok none => .ok ⟨false, "Vehicle battery level already at or above target", none⟩
    | .ok (some energy_need) =>
      plan_from_valid vehicle_charge_state charging_request energy_need
        (filterValidNow now charging_request.ready_by hourly_prices)

/-- The retention rule of the price-window filter, as the claim words it:
the entry's hour is ongoing or in the future (`entry.start >= now - 1h`) and,
when `ready_by` is set, `entry.start + 1h <= ready_by`. -/
def price_window_rule (now : ℚ) (ready_by : Option ℚ) (p : HourlyPrice) : Prop :=
  now - 1 ≤ p.start ∧ ∀ r ∈ ready_by, p.start + 1 ≤ r

instance (now : ℚ) (ready_by : Option ℚ) (p : HourlyPrice) :
    Decidable (price_window_rule now ready_by p) := by
  unfold price_window_rule; infer_instance

/-- The per-slot recurrence of `shift_fractional_forward` exactly as the
specification words it: slot `i ≥ 1` is `(E[i-1] - shift_{i-1}) + shift_i` with
`shift_i = min (E[i-1] - shift_{i-1}) (E[i])`. Helper over adjacent pairs, like
`shiftLoop`. -/
def shiftSpecGo : List ℚ → ℚ → List ℚ
  | [], _ => []
  | [_], _ => []
  | a :: b :: rest, shift =>
    let s := min (a - shift) b
    (a - shift + s) :: shiftSpecGo (b :: rest) s

/-- Function `shift_fractional_forward` as the specification words it (first slot
`f * E[0]` with `f` the fractional part of `hours_required`, then the
`shiftSpecGo` recurrence). -/
def shift_fractional_spec (energy_need : EnergyNeed) : EnergyNeed :=
  let shift := energy_need.energy_signal.headD 0 * pyFrac energy_need.hours_required
  ⟨shift :: shiftSpecGo energy_need.energy_signal shift, energy_need.hours_required⟩

/-- The amended per-slot recurrence: slot `i ≥ 1` is `(E[i-1] - shift_{i-1}) +
shift_i` with `shift_i = min shift_{i-1} (E[i])` (the source's
`energy_signal[i] - remaining` equals the previous `shift`). -/
def shiftAmendGo : List ℚ → ℚ → List ℚ
  | [], _ => []
  | [_], _ => []
  | a :: b :: rest, shift =>
    let s := min shift b
    (a - shift + s) :: shiftAmendGo (b :: rest) s

/-- Function `shift_fractional_forward` as amended: first slot `f * E[0]`, then the
`shiftAmendGo` recurrence. -/
def shift_fractional_amended (energy_need : EnergyNeed) : EnergyNeed :=
  let shift := energy_need.energy_signal.headD 0 * pyFrac energy_need.hours_required
  ⟨shift :: shiftAmendGo energy_need.energy_signal shift, energy_need.hours_required⟩

/-- The arguments of `create_charging_plan`, as one record, for stating that the
call leaves them unchanged. -/
structure PlanArgs where
  vehicle_charge_state : VehicleChargeState
  hourly_prices : List HourlyPrice
  charging_request : ChargingRequest
deriving DecidableEq, Repr

/-- Function `create_charging_plan` in state-passing form: the argument record is the
store, every step of the source only reads it (attribute access, `len`, list
comprehension over it), and no step assigns to a field or a list element of it,
so each step passes the store through unchanged; the one list the source does
extend, `hourly_prices_valid`, is freshly built by the filter loop, and
`prices_after_refund` is a freshly built list (line 170), not an in-place
update of `hourly_prices`. -/
def create_charging_plan_st (clock : ℕ → ℚ) (store : PlanArgs) :
    Except PlanError ChargingRequestResponse × PlanArgs :=
  if ¬store.vehicle_charge_state.battery_level < store.charging_request.battery_target then
    (.ok ⟨false, "Vehicle battery level already at or above target", none⟩, store)
  else if store.hourly_prices.length = 0 then
    (.error .emptyPrices, store)
  else
    match calculate_energy_need store.vehicle_charge_state.battery_level
        store.charging_request.battery_target with
    | .error e => (.error e, store)
    | .ok none =>
      (.ok ⟨false, "Vehicle battery level already at or above target", none⟩, store)
    | .ok (some energy_need) =>
      (plan_from_valid store.vehicle_charge_state store.charging_request energy_need
        (filterValidGo clock store.charging_request.ready_by 0 store.hourly_prices), store)

/-- One decidable check used by the finite sweeps: the result of
`calculate_energy_need` is a signal whose entries are positive and at most
`CHARGING_KW_MAX`, and `shift_fractional_forward` keeps `hours_required`, the
slot count, and (when there are at least two slots) the total energy. -/
def pairCheckRes : Except PlanError (Option EnergyNeed) → Bool
  | .ok (some en) =>
    let sh := shift_fractional_forward en
    en.energy_signal.all (fun x => decide (0 < x) && decide (x ≤ CHARGING_KW_MAX)) &&
    decide (sh.hours_required = en.hours_required) &&
    decide (sh.energy_signal.length = en.energy_signal.length) &&
    (decide (en.energy_signal.length ≤ 1) || decide (sh.energy_signal.sum = en.energy_signal.sum))
  | _ => false

/-- Check `pairCheckRes` applied to `calculate_energy_need`. -/
def pairCheck (s t : ℤ) : Bool := pairCheckRes (calculate_energy_need s t)

theorem calculate_below95_shift (s t : ℤ) (h0 : 0 ≤ s) (hst : s < t) (ht : t < 95) :
    calculate_energy_need s t = calculate_energy_need 0 (t - s) := by
  have h1 : ¬(s < 0 ∨ s > 100) := by omega
  have h2 : ¬(t < 0 ∨ t > 100) := by omega
  have h3 : ¬s ≥ t := by omega
  have g1 : ¬((0 : ℤ) < 0 ∨ (0 : ℤ) > 100) := by omega
  have g2 : ¬(t - s < 0 ∨ t - s > 100) := by omega
  have g3 : ¬(0 : ℤ) ≥ t - s := by omega
  have g4 : t - s < 95 := by omega
  unfold calculate_energy_need
  rw [if_neg h1, if_neg h2, if_neg h3, if_pos ht, if_neg g1, if_neg g2, if_neg g3, if_pos g4]
  have hcast : ((t - s : ℤ) : ℚ) - ((0 : ℤ) : ℚ) = (t : ℚ) - (s : ℚ) := by push_cast; ring
  rw [hcast]

set_option maxHeartbeats 1000000 in
set_option maxRecDepth 100000 in
theorem sweep_below95 :
    ((List.range 94).all fun d => pairCheck 0 ((d : ℤ) + 1)) = true := by decide

set_option maxHeartbeats 4000000 in
set_option maxRecDepth 100000 in
theorem sweep_from95 :
    ((List.range 6).all fun i =>
      (List.range (95 + i)).all fun s => pairCheck (s : ℤ) ((95 + i : ℕ) : ℤ)) = true := by decide

theorem pairCheck_true (s t : ℤ) (h0 : 0 ≤ s) (hst : s < t) (ht : t ≤ 100) :
    pairCheck s t = true := by
  by_cases hlt : t < 95
  · have hd : pairCheck s t = pairCheck 0 (t - s) := by
      unfold pairCheck
      rw [calculate_below95_shift s t h0 hst hlt]
    rw [hd]
    have hall := List.all_eq_true.mp sweep_below95 (t - s - 1).toNat
      (List.mem_range.mpr (by omega))
    have heq : ((t - s - 1).toNat : ℤ) + 1 = t - s := by omega
    rw [heq] at hall
    exact hall
  · have hi : (t - 95).toNat ∈ List.range 6 := List.mem_range.mpr (by omega)
    have hall := List.all_eq_true.mp sweep_from95 (t - 95).toNat hi
    have hs : s.toNat ∈ List.range (95 + (t - 95).toNat) := List.mem_range.mpr (by omega)
    have hval := List.all_eq_true.mp hall s.toNat hs
    have heqt : ((95 + (t - 95).toNat : ℕ) : ℤ) = t := by omega
    have heqs : ((s.toNat : ℕ) : ℤ) = s := by omega
    rw [heqt, heqs] at hval
    exact hval

theorem pairCheckRes_spec (r : Except PlanError (Option EnergyNeed))
    (h : pairCheckRes r = true) :
    ∃ en, r = .ok (some en) ∧
      (∀ x ∈ en.energy_signal, 0 < x) ∧
      (∀ x ∈ en.energy_signal, x ≤ CHARGING_KW_MAX) ∧
      (shift_fractional_forward en).hours_required = en.hours_required ∧
      (shift_fractional_forward en).energy_signal.length = en.energy_signal.length ∧
      (2 ≤ en.energy_signal.length →
        (shift_fractional_forward en).energy_signal.sum = en.energy_signal.sum) := by
  match r with
  | .error e => simp [pairCheckRes] at h
  | .ok none => simp [pairCheckRes] at h
  | .ok (some en) =>
    refine ⟨en, rfl, ?_⟩
    simp only [pairCheckRes, Bool.and_eq_true, Bool.or_eq_true, List.all_eq_true,
      decide_eq_true_eq] at h
    obtain ⟨⟨⟨hbnd, hhours⟩, hlen⟩, hsum⟩ := h
    refine ⟨fun x hx => (hbnd x hx).1, fun x hx => (hbnd x hx).2, hhours, hlen, fun h2 => ?_⟩
    rcases hsum with h1 | hs
    · omega
    · exact hs

theorem calculate_energy_need_ok_bounds (s t : ℤ) (en : EnergyNeed)
    (h : calculate_energy_need s t = .ok (some en)) : 0 ≤ s ∧ s < t ∧ t ≤ 100 := by
  by_cases h1 : s < 0 ∨ s > 100
  · rw [calculate_energy_need, if_pos h1] at h
    exact Except.noConfusion h
  by_cases h2 : t < 0 ∨ t > 100
  · rw [calculate_energy_need, if_neg h1, if_pos h2] at h
    exact Except.noConfusion h
  by_cases h3 : s ≥ t
  · rw [calculate_energy_need, if_neg h1, if_neg h2, if_pos h3] at h
    exact Option.noConfusion (Except.ok.inj h)
  omega

theorem shiftLoop_length (l : List ℚ) : ∀ s : ℚ, (shiftLoop l s).length = l.length - 1 := by
  induction l with
  | nil => intro s; rfl
  | cons x xs ih =>
    intro s
    match xs with
    | [] => rfl
    | y :: rest =>
      show (shiftLoop (x :: y :: rest) s).length = (y :: rest).length
      rw [shiftLoop]
      simpa using ih _

theorem shiftLoop_eq_amendGo (l : List ℚ) : ∀ s : ℚ, shiftLoop l s = shiftAmendGo l s := by
  induction l with
  | nil => intro s; rfl
  | cons x xs ih =>
    intro s
    match xs with
    | [] => rfl
    | y :: rest =>
      rw [shiftLoop, shiftAmendGo]
      have hmin : x - (x - s) = s := by ring
      rw [hmin, ih]

/-- C1: the claim states that for every `0 ≤ start < target ≤ 100` the energy
signal of `calculate_energy_need` sums to `(target - start)/100 *
BATTERY_CAPACITY_KWH` (within `1e-6` relative tolerance). The code violates it
when the start level is strictly above 95: at `(96, 100)` the signal sums to
`2.875` kWh (it charges the full 95-to-100 segment), while the claimed value is
`(100-96)/100 * 57.5 = 2.3` kWh — a relative error of `0.25`, far outside the
tolerance. -/
theorem C1_energy_sum_bug_at_96_100 :
    ∃ en, calculate_energy_need 96 100 = Except.ok (some en) ∧
      en.energy_signal.sum = 23 / 8 ∧
      (100 - 96 : ℚ) / 100 * BATTERY_CAPACITY_KWH = 23 / 10 ∧
      en.energy_signal.sum ≠ (100 - 96 : ℚ) / 100 * BATTERY_CAPACITY_KWH ∧
      |en.energy_signal.sum - (100 - 96 : ℚ) / 100 * BATTERY_CAPACITY_KWH| >
        (1 / 1000000) * ((100 - 96 : ℚ) / 100 * BATTERY_CAPACITY_KWH) := by
  refine ⟨⟨[23 / 8], 115 / 304⟩, by decide, by decide, by decide, by decide, ?_⟩
  rw [show |(([(23 : ℚ) / 8] : List ℚ).sum - (100 - 96 : ℚ) / 100 * BATTERY_CAPACITY_KWH)| =
      23 / 40 by decide]
  decide

/-- C3 counterexample: `calculate_energy_need 90 91` is a valid single-slot
`EnergyNeed`, and `shift_fractional_forward` does not preserve its total energy
(the single slot is scaled by the fractional hour `23/424`), refuting "the sum
of the shifted energy_signal equals the sum of the original" for every valid
`EnergyNeed`. Slot count and `hours_required` are preserved here. -/
theorem C3_sum_not_preserved_at_90_91 :
    calculate_energy_need 90 91 = Except.ok (some ⟨[23 / 40], 23 / 424⟩) ∧
    (shift_fractional_forward ⟨[23 / 40], 23 / 424⟩).energy_signal.sum ≠
      (EnergyNeed.mk [23 / 40] (23 / 424)).energy_signal.sum ∧
    (shift_fractional_forward ⟨[23 / 40], 23 / 424⟩).hours_required = 23 / 424 ∧
    (shift_fractional_forward ⟨[23 / 40], 23 / 424⟩).energy_signal.length = 1 := by
  refine ⟨by decide, by decide, by decide, by decide⟩

/-- C3 (amended): `shift_fractional_forward` always returns the same
`hours_required` and, for a non-empty signal, the same number of slots; the
total energy is preserved for every `EnergyNeed` produced by
`calculate_energy_need` whose signal has at least two slots (a single-slot
signal is scaled by the fractional hour instead). -/
theorem C3_shift_preserves_energy :
    (∀ en : EnergyNeed, (shift_fractional_forward en).hours_required = en.hours_required) ∧
    (∀ en : EnergyNeed, en.energy_signal ≠ [] →
      (shift_fractional_forward en).energy_signal.length = en.energy_signal.length) ∧
    (∀ s t : ℤ, ∀ en : EnergyNeed, calculate_energy_need s t = Except.ok (some en) →
      2 ≤ en.energy_signal.length →
      (shift_fractional_forward en).energy_signal.sum = en.energy_signal.sum) := by
  refine ⟨fun en => rfl, fun en hne => ?_, fun s t en hok h2 => ?_⟩
  · show (_ :: shiftLoop en.energy_signal _).length = _
    rw [List.length_cons, shiftLoop_length]
    have hlen : en.energy_signal.length ≠ 0 := fun h => hne (List.length_eq_zero.mp h)
    omega
  · obtain ⟨h0, hst, ht⟩ := calculate_energy_need_ok_bounds s t en hok
    obtain ⟨en2, hok2, _, _, _, _, hsum⟩ :=
      pairCheckRes_spec _ (pairCheck_true s t h0 hst ht)
    rw [hok] at hok2
    obtain rfl : en = en2 := Option.some.inj (Except.ok.inj hok2)
    exact hsum h2

/-- C3 witness: the amended statement applied at `calculate_energy_need 0 28 =
⟨[10.6, 5.5], 161/106⟩`, a two-slot energy need. -/
theorem C3_shift_preserves_energy_witness :
    (shift_fractional_forward ⟨[53 / 5, 11 / 2], 161 / 106⟩).energy_signal.sum =
      (EnergyNeed.mk [53 / 5, 11 / 2] (161 / 106)).energy_signal.sum ∧
    (shift_fractional_forward ⟨[53 / 5, 11 / 2], 161 / 106⟩).energy_signal.length =
      (EnergyNeed.mk [53 / 5, 11 / 2] (161 / 106)).energy_signal.length :=
  ⟨C3_shift_preserves_energy.2.2 0 28 ⟨[53 / 5, 11 / 2], 161 / 106⟩ (by decide) (by decide),
   C3_shift_preserves_energy.2.1 ⟨[53 / 5, 11 / 2], 161 / 106⟩ (by decide)⟩

/-- C8: for every valid `(start, target)` with `0 ≤ start < target ≤ 100`,
`calculate_energy_need` succeeds and every entry of its energy signal is
strictly positive. (The below-95% branch appends its fractional slot
unconditionally, but that slot's value `CHARGING_KW_MAX * frac` is never zero
for integer percentages, since `(target-start) * 57.5 / (100 * 10.6)` is never
an integer for `1 ≤ target-start ≤ 100`.) -/
theorem C8_energy_signal_positive (s t : ℤ) (h0 : 0 ≤ s) (hst : s < t) (ht : t ≤ 100) :
    ∃ en, calculate_energy_need s t = Except.ok (some en) ∧
      ∀ x ∈ en.energy_signal, 0 < x := by
  obtain ⟨en, hok, hpos, _⟩ := pairCheckRes_spec _ (pairCheck_true s t h0 hst ht)
  exact ⟨en, hok, hpos⟩

/-- C8 witness: the theorem applied at `(start, target) = (40, 95)`. -/
theorem C8_energy_signal_positive_witness :
    ∃ en, calculate_energy_need 40 95 = Except.ok (some en) ∧
      ∀ x ∈ en.energy_signal, 0 < x :=
  C8_energy_signal_positive 40 95 (by decide) (by decide) (by decide)

/-- C10: `CHARGING_KW_END < CHARGING_KW_MAX`, and for every valid `(start,
target)` with `0 ≤ start < target ≤ 100` every slot of the energy signal is at
most `CHARGING_KW_MAX` kWh — including the merged slot at the 95% boundary,
whose value is `CHARGING_KW_MAX * f + CHARGING_KW_END * min (1 - f) remaining`. -/
theorem C10_energy_signal_le_max (s t : ℤ) (h0 : 0 ≤ s) (hst : s < t) (ht : t ≤ 100) :
    CHARGING_KW_END < CHARGING_KW_MAX ∧
    ∃ en, calculate_energy_need s t = Except.ok (some en) ∧
      ∀ x ∈ en.energy_signal, x ≤ CHARGING_KW_MAX := by
  obtain ⟨en, hok, _, hle, _⟩ := pairCheckRes_spec _ (pairCheck_true s t h0 hst ht)
  exact ⟨by decide, en, hok, hle⟩

/-- C10 witness: the theorem applied at `(start, target) = (90, 100)` (a pair
crossing the 95% boundary with a merged slot). -/
theorem C10_energy_signal_le_max_witness :
    CHARGING_KW_END < CHARGING_KW_MAX ∧
    ∃ en, calculate_energy_need 90 100 = Except.ok (some en) ∧
      ∀ x ∈ en.energy_signal, x ≤ CHARGING_KW_MAX :=
  C10_energy_signal_le_max 90 100 (by decide) (by decide) (by decide)

/-- C4 counterexample: on the valid two-slot `EnergyNeed` produced by
`calculate_energy_need 0 28` (signal `[10.6, 5.5]`, `hours_required = 161/106`,
fractional part `55/106 > 1/2`), the signal returned by
`shift_fractional_forward` differs from the claim's recurrence `shift_i =
min (E[i-1] - shift_{i-1}) (E[i])`: the code produces slot 1 `= 10.6`, the
claimed recurrence gives `10.2`. -/
theorem C4_recurrence_mismatch_at_0_28 :
    calculate_energy_need 0 28 = Except.ok (some ⟨[53 / 5, 11 / 2], 161 / 106⟩) ∧
    (shift_fractional_forward ⟨[53 / 5, 11 / 2], 161 / 106⟩).energy_signal =
      [11 / 2, 53 / 5] ∧
    (shift_fractional_spec ⟨[53 / 5, 11 / 2], 161 / 106⟩).energy_signal =
      [11 / 2, 51 / 5] ∧
    shift_fractional_forward ⟨[53 / 5, 11 / 2], 161 / 106⟩ ≠
      shift_fractional_spec ⟨[53 / 5, 11 / 2], 161 / 106⟩ := by
  refine ⟨by decide, by decide, by decide, by decide⟩

/-- C4 (amended): the first slot of the shifted signal is `f * E[0]` (`f` the
fractional part of `hours_required`), and the remaining slots follow the
left-to-right recurrence slot `i = (E[i-1] - shift_{i-1}) + shift_i` with
`shift_i = min shift_{i-1} (E[i])` — the source's `energy_signal[i] - remaining`
is the previous `shift`, not `E[i-1] - shift_{i-1}`. -/
theorem C4_shift_recurrence (en : EnergyNeed) (_hne : en.energy_signal ≠ []) :
    (shift_fractional_forward en).energy_signal.headD 0 =
      en.energy_signal.headD 0 * pyFrac en.hours_required ∧
    shift_fractional_forward en = shift_fractional_amended en := by
  constructor
  · rfl
  · show EnergyNeed.mk
        (en.energy_signal.headD 0 * pyFrac en.hours_required ::
          shiftLoop en.energy_signal (en.energy_signal.headD 0 * pyFrac en.hours_required))
        en.hours_required =
      EnergyNeed.mk
        (en.energy_signal.headD 0 * pyFrac en.hours_required ::
          shiftAmendGo en.energy_signal (en.energy_signal.headD 0 * pyFrac en.hours_required))
        en.hours_required
    rw [shiftLoop_eq_amendGo]

theorem argminGo_spec (l : List ℚ) : ∀ (bv : ℚ) (best i : ℕ),
    (argminGo l bv best i = best ∧ ∀ j < l.length, bv ≤ l.getD j 0) ∨
    (∃ j, j < l.length ∧ argminGo l bv best i = i + j ∧ l.getD j 0 < bv ∧
      (∀ j2 < l.length, l.getD j 0 ≤ l.getD j2 0) ∧
      (∀ j2 < j, l.getD j 0 < l.getD j2 0)) := by
  induction l with
  | nil =>
    intro bv best i
    left
    exact ⟨rfl, fun j hj => absurd hj (by simp)⟩
  | cons y ys ih =>
    intro bv best i
    by_cases hy : y < bv
    · right
      have hrec : argminGo (y :: ys) bv best i = argminGo ys y i (i + 1) := by
        rw [argminGo, if_pos hy]
      rcases ih y i (i + 1) with ⟨heq, hle⟩ | ⟨j, hj, heq, hlt, hmin, hstrict⟩
      · refine ⟨0, by simp, by rw [hrec, heq]; omega, by simpa using hy, ?_,
          fun j2 hj2 => absurd hj2 (Nat.not_lt_zero _)⟩
        intro j2 hj2
        match j2 with
        | 0 => exact le_refl _
        | j3 + 1 =>
          rw [List.getD_cons_zero, List.getD_cons_succ]
          exact hle j3 (by simpa using hj2)
      · refine ⟨j + 1, by simpa using hj, by rw [hrec, heq]; omega, ?_, ?_, ?_⟩
        · rw [List.getD_cons_succ]
          exact lt_trans hlt hy
        · intro j2 hj2
          match j2 with
          | 0 =>
            rw [List.getD_cons_succ, List.getD_cons_zero]
            exact le_of_lt hlt
          | j3 + 1 =>
            rw [List.getD_cons_succ, List.getD_cons_succ]
            exact hmin j3 (by simpa using hj2)
        · intro j2 hj2
          match j2 with
          | 0 =>
            rw [List.getD_cons_succ, List.getD_cons_zero]
            exact hlt
          | j3 + 1 =>
            rw [List.getD_cons_succ, List.getD_cons_succ]
            exact hstrict j3 (by omega)
    · have hrec : argminGo (y :: ys) bv best i = argminGo ys bv best (i + 1) := by
        rw [argminGo, if_neg hy]
      rcases ih bv best (i + 1) with ⟨heq, hle⟩ | ⟨j, hj, heq, hlt, hmin, hstrict⟩
      · left
        refine ⟨by rw [hrec, heq], ?_⟩
        intro j2 hj2
        match j2 with
        | 0 => simpa using le_of_not_lt hy
        | j3 + 1 =>
          rw [List.getD_cons_succ]
          exact hle j3 (by simpa using hj2)
      · right
        refine ⟨j + 1, by simpa using hj, by rw [hrec, heq]; omega, ?_, ?_, ?_⟩
        · rw [List.getD_cons_succ]
          exact hlt
        · intro j2 hj2
          match j2 with
          | 0 =>
            rw [List.getD_cons_succ, List.getD_cons_zero]
            exact le_of_lt (lt_of_lt_of_le hlt (le_of_not_lt hy))
          | j3 + 1 =>
            rw [List.getD_cons_succ, List.getD_cons_succ]
            exact hmin j3 (by simpa using hj2)
        · intro j2 hj2
          match j2 with
          | 0 =>
            rw [List.getD_cons_succ, List.getD_cons_zero]
            exact lt_of_lt_of_le hlt (le_of_not_lt hy)
          | j3 + 1 =>
            rw [List.getD_cons_succ, List.getD_cons_succ]
            exact hstrict j3 (by omega)

theorem argmin_spec (C : List ℚ) (h : C ≠ []) :
    ∃ k : ℕ, argmin C = (k : ℤ) ∧ k < C.length ∧
      (∀ j < C.length, C.getD k 0 ≤ C.getD j 0) ∧
      (∀ j < k, C.getD k 0 < C.getD j 0) := by
  match C with
  | [] => exact absurd rfl h
  | x :: xs =>
    have hdef : argmin (x :: xs) = (argminGo xs x 0 1 : ℕ) := rfl
    rcases argminGo_spec xs x 0 1 with ⟨heq, hle⟩ | ⟨j, hj, heq, hlt, hmin, hstrict⟩
    · refine ⟨0, by rw [hdef, heq], by simp, ?_,
        fun j2 hj2 => absurd hj2 (Nat.not_lt_zero _)⟩
      intro j2 hj2
      match j2 with
      | 0 => exact le_refl _
      | j3 + 1 =>
        rw [List.getD_cons_zero, List.getD_cons_succ]
        exact hle j3 (by simpa using hj2)
    · refine ⟨1 + j, by rw [hdef, heq], by simp only [List.length_cons]; omega, ?_, ?_⟩
      · intro j2 hj2
        have h1j : 1 + j = j + 1 := by omega
        rw [h1j, List.getD_cons_succ]
        match j2 with
        | 0 =>
          rw [List.getD_cons_zero]
          exact le_of_lt hlt
        | j3 + 1 =>
          rw [List.getD_cons_succ]
          exact hmin j3 (by simpa using hj2)
      · intro j2 hj2
        have h1j : 1 + j = j + 1 := by omega
        rw [h1j, List.getD_cons_succ]
        match j2 with
        | 0 =>
          rw [List.getD_cons_zero]
          exact hlt
        | j3 + 1 =>
          rw [List.getD_cons_succ]
          exact hstrict j3 (by omega)

theorem foldl_range_add (g : ℕ → ℚ) (m : ℕ) : ∀ c : ℚ,
    (List.range m).foldl (fun conv_sum j => conv_sum + g j) c =
      c + ∑ j ∈ Finset.range m, g j := by
  induction m with
  | zero => intro c; simp
  | succ n ihn =>
    intro c
    rw [List.range_succ, List.foldl_append, ihn, Finset.sum_range_succ]
    simp [add_assoc]

theorem convolve_valid_of_short (P E : List ℚ) (h : P.length < E.length) :
    convolve_valid P E = [] := by
  rw [convolve_valid, if_pos (Or.inl h)]

theorem convolve_valid_length (P E : List ℚ) (h : E.length ≤ P.length)
    (hE : E.length ≠ 0) : (convolve_valid P E).length = P.length - E.length + 1 := by
  rw [convolve_valid, if_neg (by omega)]
  simp

theorem convolve_valid_getD (P E : List ℚ) (h : E.length ≤ P.length) (hE : E.length ≠ 0)
    (i : ℕ) (hi : i ≤ P.length - E.length) :
    (convolve_valid P E).getD i 0 =
      ∑ j ∈ Finset.range E.length, P.getD (i + j) 0 * E.getD j 0 := by
  rw [convolve_valid, if_neg (by omega)]
  rw [List.getD_eq_getElem?_getD, List.getElem?_map, List.getElem?_range (by omega)]
  simp [foldl_range_add]

/-- C2: `convolve_valid P E` with `E` non-empty computes, when `len E ≤ len P`,
the list of all `len P - len E + 1` window costs `C[i] = Σ_{j<len E} P[i+j] *
E[j]`; when `len E > len P` it returns `[]`; and `argmin` over the (then
non-empty) cost list picks an index attaining the minimum that is strictly
smaller than every earlier entry (ties resolved to the earliest index). -/
theorem C2_convolve_argmin_spec (P E : List ℚ) (hE : E ≠ []) :
    (E.length ≤ P.length →
      (convolve_valid P E).length = P.length - E.length + 1 ∧
      (∀ i ≤ P.length - E.length,
        (convolve_valid P E).getD i 0 =
          ∑ j ∈ Finset.range E.length, P.getD (i + j) 0 * E.getD j 0) ∧
      ∃ k : ℕ, argmin (convolve_valid P E) = (k : ℤ) ∧ k < (convolve_valid P E).length ∧
        (∀ j < (convolve_valid P E).length,
          (convolve_valid P E).getD k 0 ≤ (convolve_valid P E).getD j 0) ∧
        (∀ j < k, (convolve_valid P E).getD k 0 < (convolve_valid P E).getD j 0)) ∧
    (P.length < E.length → convolve_valid P E = []) := by
  have hEne : E.length ≠ 0 := fun hc => hE (List.length_eq_zero.mp hc)
  refine ⟨fun hle => ⟨convolve_valid_length P E hle hEne,
    fun i hi => convolve_valid_getD P E hle hEne i hi, ?_⟩,
    convolve_valid_of_short P E⟩
  refine argmin_spec _ fun hc => ?_
  have hl := convolve_valid_length P E hle hEne
  rw [hc] at hl
  have hl0 : (0 : ℕ) = P.length - E.length + 1 := hl
  omega

/-- C2 witness: the theorem applied at `P = [3, 1, 1, 2]`, `E = [1, 1]` (window
costs `[4, 2, 3]`, argmin `1`). -/
theorem C2_convolve_argmin_spec_witness :
    (([1, 1] : List ℚ).length ≤ ([3, 1, 1, 2] : List ℚ).length →
      (convolve_valid [3, 1, 1, 2] [1, 1]).length = 3 ∧
      (∀ i ≤ ([3, 1, 1, 2] : List ℚ).length - ([1, 1] : List ℚ).length,
        (convolve_valid [3, 1, 1, 2] [1, 1]).getD i 0 =
          ∑ j ∈ Finset.range ([1, 1] : List ℚ).length,
            ([3, 1, 1, 2] : List ℚ).getD (i + j) 0 * ([1, 1] : List ℚ).getD j 0) ∧
      ∃ k : ℕ, argmin (convolve_valid [3, 1, 1, 2] [1, 1]) = (k : ℤ) ∧
        k < (convolve_valid [3, 1, 1, 2] [1, 1]).length ∧
        (∀ j < (convolve_valid [3, 1, 1, 2] [1, 1]).length,
          (convolve_valid [3, 1, 1, 2] [1, 1]).getD k 0 ≤
            (convolve_valid [3, 1, 1, 2] [1, 1]).getD j 0) ∧
        (∀ j < k, (convolve_valid [3, 1, 1, 2] [1, 1]).getD k 0 <
          (convolve_valid [3, 1, 1, 2] [1, 1]).getD j 0)) ∧
    (([3, 1, 1, 2] : List ℚ).length < ([1, 1] : List ℚ).length →
      convolve_valid [3, 1, 1, 2] [1, 1] = []) := by
  have h := C2_convolve_argmin_spec [3, 1, 1, 2] [1, 1] (by decide)
  rcases h with ⟨h1, h2⟩
  exact ⟨fun hle => by simpa using h1 hle, h2⟩

/-- C4 witness: the amended recurrence applied at the two-slot energy need
`⟨[10.6, 5.5], 161/106⟩`. -/
theorem C4_shift_recurrence_witness :
    (shift_fractional_forward ⟨[53 / 5, 11 / 2], 161 / 106⟩).energy_signal.headD 0 =
      (EnergyNeed.mk [53 / 5, 11 / 2] (161 / 106)).energy_signal.headD 0 *
        pyFrac (EnergyNeed.mk [53 / 5, 11 / 2] (161 / 106)).hours_required ∧
    shift_fractional_forward ⟨[53 / 5, 11 / 2], 161 / 106⟩ =
      shift_fractional_amended ⟨[53 / 5, 11 / 2], 161 / 106⟩ :=
  C4_shift_recurrence ⟨[53 / 5, 11 / 2], 161 / 106⟩ (by decide)

theorem filterValidGo_cons (clock : ℕ → ℚ) (rb : Option ℚ) (i : ℕ) (p : HourlyPrice)
    (ps : List HourlyPrice) :
    filterValidGo clock rb i (p :: ps) =
      if (decide (p.start ≥ clock i - 1) &&
          (match rb with
           | some r => decide (p.start + 1 ≤ r)
           | none => true)) = true
      then p :: filterValidGo clock rb (i + 1) ps
      else filterValidGo clock rb (i + 1) ps := rfl

theorem filterValidNow_cons (now : ℚ) (rb : Option ℚ) (p : HourlyPrice)
    (ps : List HourlyPrice) :
    filterValidNow now rb (p :: ps) =
      if (decide (p.start ≥ now - 1) &&
          (match rb with
           | some r => decide (p.start + 1 ≤ r)
           | none => true)) = true
      then p :: filterValidNow now rb ps
      else filterValidNow now rb ps := rfl

theorem filterValid_const_clock (now : ℚ) (rb : Option ℚ) (prices : List HourlyPrice) :
    ∀ i : ℕ, filterValidGo (fun _ => now) rb i prices = filterValidNow now rb prices := by
  induction prices with
  | nil => intro i; rfl
  | cons p ps ih =>
    intro i
    rw [filterValidGo_cons, filterValidNow_cons, ih]

theorem filterValidNow_eq_filter (now : ℚ) (rb : Option ℚ) : ∀ l : List HourlyPrice,
    filterValidNow now rb l = l.filter fun p => decide (price_window_rule now rb p) := by
  intro l
  induction l with
  | nil => rfl
  | cons p ps ih =>
    rw [filterValidNow_cons, List.filter_cons, ih]
    cases rb with
    | none => simp [price_window_rule, ge_iff_le]
    | some r => simp [price_window_rule, ge_iff_le]

/-- C6: with the clock frozen at `now`, the price filter of
`create_charging_plan` retains an hourly price entry exactly when
`entry.start ≥ now - 1h` and, when `ready_by` is set, `entry.start + 1h ≤
ready_by`; the result is `List.filter` of that rule, hence keeps the retained
entries in their original order (a sublist) with no reordering or
deduplication. -/
theorem C6_price_filter_rule (now : ℚ) (rb : Option ℚ) (prices : List HourlyPrice) :
    filterValidGo (fun _ => now) rb 0 prices =
      (prices.filter fun p => decide (price_window_rule now rb p)) ∧
    (∀ p, p ∈ filterValidGo (fun _ => now) rb 0 prices ↔
      p ∈ prices ∧ price_window_rule now rb p) ∧
    List.Sublist (filterValidGo (fun _ => now) rb 0 prices) prices := by
  have hmain : filterValidGo (fun _ => now) rb 0 prices =
      prices.filter fun p => decide (price_window_rule now rb p) := by
    rw [filterValid_const_clock, filterValidNow_eq_filter]
  refine ⟨hmain, fun p => ?_, ?_⟩
  · rw [hmain, List.mem_filter, decide_eq_true_eq]
  · rw [hmain]
    exact List.filter_sublist _

/-- C5 counterexample: two runs of `create_charging_plan` on identical battery
state, prices and request, whose wall clocks agree at call time (`clock 0 = 0`
for both), produce different plans when the clock advances between the filter
loop's iterations (the second run reads `3` at iteration 1, discarding the
cheap hour starting at `1`). The outcome therefore does not depend on time only
through a single call-time "now". -/
theorem C5_wall_clock_divergence :
    (fun _ : ℕ => (0 : ℚ)) 0 = (fun i : ℕ => if i = 0 then (0 : ℚ) else 3) 0 ∧
    create_charging_plan (fun _ => 0) ⟨90, 350, 0⟩ [⟨0, 2⟩, ⟨1, 1⟩] ⟨91, none⟩ ≠
      create_charging_plan (fun i => if i = 0 then 0 else 3) ⟨90, 350, 0⟩
        [⟨0, 2⟩, ⟨1, 1⟩] ⟨91, none⟩ :=
  ⟨rfl, by decide⟩

/-- C5 (amended): `create_charging_plan` reads the wall clock once per filter
iteration; when every read returns the same instant `now`, the call equals the
pure function `create_charging_plan_at` of `(battery state, prices, request,
now)` — so runs with identical inputs and a constant clock yield identical
plans or identical failures. -/
theorem C5_constant_clock_deterministic (now : ℚ) (vehicle_charge_state : VehicleChargeState)
    (hourly_prices : List HourlyPrice) (charging_request : ChargingRequest) :
    create_charging_plan (fun _ => now) vehicle_charge_state hourly_prices charging_request =
      create_charging_plan_at now vehicle_charge_state hourly_prices charging_request := by
  unfold create_charging_plan create_charging_plan_at
  simp only [filterValid_const_clock]

/-- C7 counterexample: a call whose battery level `150` lies outside `[0, 100]`
(paired with target `100`) does not fail with an InvalidRange error: because the
target comparison on line 140 precedes all range validation, it returns the
structured "already at or above target" response. -/
theorem C7_out_of_range_not_an_error :
    create_charging_plan (fun _ => 0) ⟨150, 0, 0⟩ [⟨0, 1⟩] ⟨100, none⟩ =
      Except.ok ⟨false, "Vehicle battery level already at or above target", none⟩ ∧
    (create_charging_plan (fun _ => 0) ⟨150, 0, 0⟩ [⟨0, 1⟩] ⟨100, none⟩).isOk = true :=
  ⟨by decide, by decide⟩

/-- C7 (amended): range validation only runs when the battery level is below
the target and the price list is non-empty; in that case a battery level or
target outside `[0, 100]` makes the call fail with the corresponding
InvalidRange `RuntimeError`. When the level is at or above the target, the call
returns the structured no-op response without validating ranges. -/
theorem C7_invalid_range_error (clock : ℕ → ℚ) (vehicle_charge_state : VehicleChargeState)
    (hourly_prices : List HourlyPrice) (charging_request : ChargingRequest) :
    (charging_request.battery_target ≤ vehicle_charge_state.battery_level →
      create_charging_plan clock vehicle_charge_state hourly_prices charging_request =
        Except.ok ⟨false, "Vehicle battery level already at or above target", none⟩) ∧
    (vehicle_charge_state.battery_level < charging_request.battery_target →
      hourly_prices ≠ [] →
      (vehicle_charge_state.battery_level < 0 ∨ vehicle_charge_state.battery_level > 100 ∨
        charging_request.battery_target < 0 ∨ charging_request.battery_target > 100) →
      create_charging_plan clock vehicle_charge_state hourly_prices charging_request =
          Except.error (.invalidRangeStart vehicle_charge_state.battery_level) ∨
        create_charging_plan clock vehicle_charge_state hourly_prices charging_request =
          Except.error (.invalidRangeTarget charging_request.battery_target)) := by
  constructor
  · intro hle
    rw [create_charging_plan, if_pos (by omega)]
  · intro hlt hne hout
    have hlen : ¬hourly_prices.length = 0 := fun h => hne (List.length_eq_zero.mp h)
    rw [create_charging_plan, if_neg (by omega), if_neg hlen]
    by_cases h1 : vehicle_charge_state.battery_level < 0 ∨
        vehicle_charge_state.battery_level > 100
    · left
      rw [calculate_energy_need, if_pos h1]
    · right
      have h2 : charging_request.battery_target < 0 ∨
          charging_request.battery_target > 100 := by omega
      rw [calculate_energy_need, if_neg h1, if_pos h2]

/-- C7 witness: the amended statement applied at battery level `150`, target
`200` (level below target, one price entry): the call fails with an
InvalidRange error. -/
theorem C7_invalid_range_error_witness :
    create_charging_plan (fun _ => 0) ⟨150, 0, 0⟩ [⟨0, 1⟩] ⟨200, none⟩ =
        Except.error (.invalidRangeStart 150) ∨
      create_charging_plan (fun _ => 0) ⟨150, 0, 0⟩ [⟨0, 1⟩] ⟨200, none⟩ =
        Except.error (.invalidRangeTarget 200) :=
  (C7_invalid_range_error (fun _ => 0) ⟨150, 0, 0⟩ [⟨0, 1⟩] ⟨200, none⟩).2
    (by decide) (by decide) (by decide)

/-- C9: `create_charging_plan` never mutates its arguments: in the
state-passing embedding the store holding the vehicle state, the hourly price
list (and each entry in it) and the charging request comes back unchanged from
every branch, successful or not, and the result is the same as the pure
function's — the tax-refund adjustment (line 170) maps the prices into a fresh
list. -/
theorem C9_arguments_unchanged (clock : ℕ → ℚ) (args : PlanArgs) :
    (create_charging_plan_st clock args).2 = args ∧
    (create_charging_plan_st clock args).1 =
      create_charging_plan clock args.vehicle_charge_state args.hourly_prices
        args.charging_request := by
  unfold create_charging_plan_st create_charging_plan
  constructor
  · split
    · rfl
    · split
      · rfl
      · split <;> rfl
  · split
    · rfl
    · split
      · rfl
      · split <;> rfl

end Ladning
